import Mathlib

/-!
Shallow embedding of the background-segmentation engine of
`src/components/BackgroundRemoval.tsx` (the per-pixel classification
loop of `removeBackground`, lines 65-135), together with proofs of the
specified properties.

The RGBA buffer is a flat byte sequence, modelled as `List ℕ`; the loop
walks it four bytes at a time.  All JavaScript number arithmetic in the
classifier is modelled exactly over `ℚ`; the comparisons against
`Math.sqrt(v)` (with `v` a sum of squares divided by 3, hence
non-negative) are modelled exactly by comparing `v` with the square of
the threshold, guarded on the threshold's sign (`sqrtLt` / `sqrtGt`
below, proved equivalent to the real square-root comparisons).
Coordinate and channel differences (`width - 10`, `r - g`) are taken in
`ℤ`, since JavaScript subtraction can go negative.
-/

/-- Decides `Real.sqrt v < t` for `v ≥ 0`: the square root of a
non-negative quantity is below `t` iff `t` is positive and `v < t ^ 2`. -/
def sqrtLt (v t : ℚ) : Bool :=
  decide (0 < t) && decide (v < t ^ 2)

/-- Decides `t < Real.sqrt v` for `v ≥ 0`: the square root of a
non-negative quantity exceeds `t` iff `t` is negative or `t ^ 2 < v`. -/
def sqrtGt (v t : ℚ) : Bool :=
  decide (t < 0) || decide (t ^ 2 < v)

theorem sqrtLt_correct (v t : ℚ) (hv : 0 ≤ v) :
    sqrtLt v t = true ↔ Real.sqrt (v : ℝ) < (t : ℝ) := by
  simp only [sqrtLt, Bool.and_eq_true, decide_eq_true_eq]
  constructor
  · rintro ⟨ht, hlt⟩
    have h1 : Real.sqrt (v : ℝ) < Real.sqrt ((t : ℝ) ^ 2) := by
      apply Real.sqrt_lt_sqrt (by exact_mod_cast hv)
      exact_mod_cast hlt
    rwa [Real.sqrt_sq (by exact_mod_cast ht.le)] at h1
  · intro hlt
    have hsq : (0 : ℝ) ≤ Real.sqrt (v : ℝ) := Real.sqrt_nonneg _
    have ht : (0 : ℝ) < (t : ℝ) := lt_of_le_of_lt hsq hlt
    refine ⟨by exact_mod_cast ht, ?_⟩
    have h2 : ((v : ℝ)) < (t : ℝ) ^ 2 := by
      have := Real.sq_sqrt (show (0 : ℝ) ≤ (v : ℝ) by exact_mod_cast hv)
      calc (v : ℝ) = Real.sqrt (v : ℝ) ^ 2 := by rw [this]
        _ < (t : ℝ) ^ 2 := by
            apply pow_lt_pow_left₀ hlt hsq
            omega
    exact_mod_cast h2

theorem sqrtGt_correct (v t : ℚ) (hv : 0 ≤ v) :
    sqrtGt v t = true ↔ (t : ℝ) < Real.sqrt (v : ℝ) := by
  simp only [sqrtGt, Bool.or_eq_true, decide_eq_true_eq]
  constructor
  · rintro (ht | hlt)
    · exact lt_of_lt_of_le (by exact_mod_cast ht) (Real.sqrt_nonneg _)
    · have h1 : Real.sqrt ((t : ℝ) ^ 2) < Real.sqrt (v : ℝ) :=
        Real.sqrt_lt_sqrt (sq_nonneg _) (by exact_mod_cast hlt)
      calc (t : ℝ) ≤ |(t : ℝ)| := le_abs_self _
        _ = Real.sqrt ((t : ℝ) ^ 2) := (Real.sqrt_sq_eq_abs _).symm
        _ < Real.sqrt (v : ℝ) := h1
  · intro hlt
    rcases lt_or_le t 0 with ht | ht
    · exact Or.inl ht
    · right
      have h2 : (t : ℝ) ^ 2 < (v : ℝ) := by
        have hs := Real.sq_sqrt (show (0 : ℝ) ≤ (v : ℝ) by exact_mod_cast hv)
        calc (t : ℝ) ^ 2 < Real.sqrt (v : ℝ) ^ 2 := by
              apply pow_lt_pow_left₀ hlt (by exact_mod_cast ht)
              omega
          _ = (v : ℝ) := hs
      exact_mod_cast h2

/-- Line 76 of the source: `brightness = (r + g + b) / 3`, with real
(here: exact rational) division. -/
def brightnessQ (r g b : ℕ) : ℚ :=
  ((r : ℚ) + (g : ℚ) + (b : ℚ)) / 3

/-- The square of the source's `colorVariance` (lines 77-79:
`sqrt(((r-m)^2 + (g-m)^2 + (b-m)^2) / 3)` with `m` the brightness);
comparisons against the variance go through `sqrtLt` / `sqrtGt`. -/
def colorVarSq (r g b : ℕ) : ℚ :=
  (((r : ℚ) - brightnessQ r g b) ^ 2 + ((g : ℚ) - brightnessQ r g b) ^ 2 +
    ((b : ℚ) - brightnessQ r g b) ^ 2) / 3

theorem colorVarSq_nonneg (r g b : ℕ) : 0 ≤ colorVarSq r g b := by
  unfold colorVarSq
  positivity

/-- Lines 114-120 of the source: the `isSkinTone` predicate. -/
def isSkinTone (r g b : ℕ) : Bool :=
  decide (r > 95) && decide (r < 255) &&
  decide (g > 40) && decide (g < 200) &&
  decide (b > 20) && decide (b < 150) &&
  decide (r > g) && decide (g > b) &&
  decide ((r : ℤ) - (g : ℤ) > 15) && decide ((g : ℤ) - (b : ℤ) > 15)

/-- Lines 81-129 of the source: the per-pixel classification.  The four
detection rules accumulate into `isBackground` in source order (`bg0`
through `bg3`), then the two override rules (skin tone at lines 122-124,
high variance at lines 127-129) may clear the flag. -/
def isBackgroundPixel (r g b x y width height : ℕ) (sensitivity : ℚ) : Bool :=
  let brightness : ℚ := brightnessQ r g b
  let varSq : ℚ := colorVarSq r g b
  let brightnessThreshold : ℚ := 180 - sensitivity * 0.8
  let varianceThreshold : ℚ := 30 + sensitivity * 0.4
  let bg0 : Bool := decide (brightness > brightnessThreshold) && sqrtLt varSq varianceThreshold
  let whiteThreshold : ℚ := 240 - sensitivity * 0.2
  let bg1 : Bool := bg0 ||
    (decide ((r : ℚ) > whiteThreshold) && decide ((g : ℚ) > whiteThreshold) &&
      decide ((b : ℚ) > whiteThreshold))
  let darkThreshold : ℚ := 50 + sensitivity * 0.3
  let bg2 : Bool := bg1 || (decide (brightness < darkThreshold) && sqrtLt varSq 20)
  let edgeThreshold : ℚ := 150 - sensitivity * 0.3
  let isEdge : Bool := decide (x < 10) || decide ((x : ℤ) > (width : ℤ) - 10) ||
    decide (y < 10) || decide ((y : ℤ) > (height : ℤ) - 10)
  let bg3 : Bool := bg2 ||
    (isEdge && decide (brightness > edgeThreshold) && sqrtLt varSq (varianceThreshold + 10))
  let bg4 : Bool := if isSkinTone r g b then false else bg3
  let bg5 : Bool := if sqrtGt varSq 60 then false else bg4
  bg5

/-- The loop of lines 65-135: walk the flat buffer four bytes at a time,
carrying the pixel index (`i / 4` in the source); `x = idx % width`,
`y = ⌊idx / width⌋`.  A background pixel's alpha byte is set to `0`; a
trailing group of fewer than four bytes is left unchanged, as in the
source (a read of a missing channel yields `NaN`, under which no rule
fires, and an out-of-range alpha write on a typed array is dropped). -/
def processPixels (width height : ℕ) (sensitivity : ℚ) (idx : ℕ) : List ℕ → List ℕ
  | r :: g :: b :: a :: rest =>
      let a2 : ℕ :=
        if isBackgroundPixel r g b (idx % width) (idx / width) width height sensitivity
        then 0 else a
      r :: g :: b :: a2 :: processPixels width height sensitivity (idx + 1) rest
  | rest => rest

/-- The background-segmentation engine: the whole pixel pass of the
source's `removeBackground`, starting at pixel index 0. -/
def removeBackground (data : List ℕ) (width height : ℕ) (sensitivity : ℚ) : List ℕ :=
  processPixels width height sensitivity 0 data

/-- Red channel of pixel `p` of a flat RGBA buffer. -/
def chR (data : List ℕ) (p : ℕ) : ℕ := data.getD (4 * p) 0

/-- Green channel of pixel `p` of a flat RGBA buffer. -/
def chG (data : List ℕ) (p : ℕ) : ℕ := data.getD (4 * p + 1) 0

/-- Blue channel of pixel `p` of a flat RGBA buffer. -/
def chB (data : List ℕ) (p : ℕ) : ℕ := data.getD (4 * p + 2) 0

/-- Alpha channel of pixel `p` of a flat RGBA buffer. -/
def chA (data : List ℕ) (p : ℕ) : ℕ := data.getD (4 * p + 3) 0

/-- The engine's alpha-zeroing decision at pixel `p` of a buffer: the
classification applied to that pixel's own RGB and coordinates. -/
def bgDecisionAt (data : List ℕ) (width height : ℕ) (sensitivity : ℚ) (p : ℕ) : Bool :=
  isBackgroundPixel (chR data p) (chG data p) (chB data p)
    (p % width) (p / width) width height sensitivity

/-- Number of pixels whose alpha the engine sets to 0 on a given buffer:
the pixels at which the classification fires. -/
def zeroedCount (data : List ℕ) (width height : ℕ) (sensitivity : ℚ) : ℕ :=
  (List.range (data.length / 4)).countP (bgDecisionAt data width height sensitivity)

/-- Flat RGBA buffer consisting of `n` copies of one pixel. -/
def repPix (r g b a : ℕ) : ℕ → List ℕ
  | 0 => []
  | n + 1 => r :: g :: b :: a :: repPix r g b a n

theorem processPixels_length (w h : ℕ) (s : ℚ) : ∀ (idx : ℕ) (data : List ℕ),
    (processPixels w h s idx data).length = data.length
  | _, [] => rfl
  | _, [_] => rfl
  | _, [_, _] => rfl
  | _, [_, _, _] => rfl
  | idx, r :: g :: b :: a :: rest => by
      simp [processPixels, processPixels_length w h s (idx + 1) rest]

theorem processPixels_get (w h : ℕ) (s : ℚ) (p : ℕ) :
    ∀ (idx : ℕ) (data : List ℕ), 4 * p + 4 ≤ data.length →
      (processPixels w h s idx data)[4 * p]? = data[4 * p]? ∧
      (processPixels w h s idx data)[4 * p + 1]? = data[4 * p + 1]? ∧
      (processPixels w h s idx data)[4 * p + 2]? = data[4 * p + 2]? ∧
      (processPixels w h s idx data)[4 * p + 3]? =
        some (if isBackgroundPixel (chR data p) (chG data p) (chB data p)
                ((idx + p) % w) ((idx + p) / w) w h s
              then 0 else chA data p) := by
  induction p with
  | zero =>
    intro idx data hlen
    match data with
    | [] => simp at hlen
    | [_] => simp at hlen
    | [_, _] => simp at hlen
    | [_, _, _] => simp at hlen
    | r :: g :: b :: a :: rest =>
      simp [processPixels, chR, chG, chB, chA]
  | succ q ih =>
    intro idx data hlen
    match data with
    | [] => simp at hlen
    | [_] => simp at hlen
    | [_, _] => simp at hlen
    | [_, _, _] => simp at hlen
    | r :: g :: b :: a :: rest =>
      have hlen' : 4 * q + 4 ≤ rest.length := by
        simp only [List.length_cons] at hlen
        omega
      have hrec := ih (idx + 1) rest hlen'
      have e0 : 4 * (q + 1) = (((4 * q) + 1) + 1 + 1) + 1 := by omega
      have e1 : 4 * (q + 1) + 1 = ((((4 * q + 1) + 1) + 1 + 1) + 1) := by omega
      have e2 : 4 * (q + 1) + 2 = ((((4 * q + 2) + 1) + 1 + 1) + 1) := by omega
      have e3 : 4 * (q + 1) + 3 = ((((4 * q + 3) + 1) + 1 + 1) + 1) := by omega
      have echr : chR (r :: g :: b :: a :: rest) (q + 1) = chR rest q := by
        simp [chR, e0]
      have echg : chG (r :: g :: b :: a :: rest) (q + 1) = chG rest q := by
        simp [chG, e1]
      have echb : chB (r :: g :: b :: a :: rest) (q + 1) = chB rest q := by
        simp [chB, e2]
      have echa : chA (r :: g :: b :: a :: rest) (q + 1) = chA rest q := by
        simp [chA, e3]
      have eidx : idx + (q + 1) = (idx + 1) + q := by omega
      rw [echr, echg, echb, echa, eidx]
      simp only [processPixels, e0, e1, e2, e3, List.getElem?_cons_succ]
      exact hrec

theorem removeBackground_rgb (data : List ℕ) (w h : ℕ) (s : ℚ) (p : ℕ)
    (hp : 4 * p + 4 ≤ data.length) :
    (removeBackground data w h s)[4 * p]? = data[4 * p]? ∧
    (removeBackground data w h s)[4 * p + 1]? = data[4 * p + 1]? ∧
    (removeBackground data w h s)[4 * p + 2]? = data[4 * p + 2]? := by
  obtain ⟨e0, e1, e2, -⟩ := processPixels_get w h s p 0 data hp
  exact ⟨e0, e1, e2⟩

theorem removeBackground_alpha (data : List ℕ) (w h : ℕ) (s : ℚ) (p : ℕ)
    (hp : 4 * p + 4 ≤ data.length) :
    (removeBackground data w h s)[4 * p + 3]? =
      some (if bgDecisionAt data w h s p then 0 else chA data p) := by
  have h3 := (processPixels_get w h s p 0 data hp).2.2.2
  simpa [removeBackground, bgDecisionAt] using h3

theorem getElem?_eq_some_getD (data : List ℕ) (n : ℕ) (hn : n < data.length) :
    data[n]? = some (data.getD n 0) := by
  simp [List.getD_eq_getElem?_getD, List.getElem?_eq_getElem hn]

theorem skin_not_bg (r g b x y w h : ℕ) (s : ℚ) (hs : isSkinTone r g b = true) :
    isBackgroundPixel r g b x y w h s = false := by
  unfold isBackgroundPixel
  simp only [hs]
  cases sqrtGt (colorVarSq r g b) 60 <;> simp

theorem varGt_not_bg (r g b x y w h : ℕ) (s : ℚ)
    (hv : sqrtGt (colorVarSq r g b) 60 = true) :
    isBackgroundPixel r g b x y w h s = false := by
  unfold isBackgroundPixel
  simp only [hv]
  simp

theorem bg_mono_0_100 (r g b x y w h : ℕ)
    (h0 : isBackgroundPixel r g b x y w h 0 = true) :
    isBackgroundPixel r g b x y w h 100 = true := by
  rcases hsk : isSkinTone r g b with _ | _
  · rcases hvg : sqrtGt (colorVarSq r g b) 60 with _ | _
    · unfold isBackgroundPixel at h0 ⊢
      simp only [hsk, hvg] at h0 ⊢
      simp only [Bool.if_false_left, Bool.if_true_left, Bool.or_eq_true, Bool.and_eq_true,
        decide_eq_true_eq, sqrtLt, Bool.not_eq_true'] at h0 ⊢
      obtain ⟨-, -, h0⟩ := h0
      refine ⟨rfl, rfl, ?_⟩
      rcases h0 with (((h1 | h2) | h3) | h4)
      · obtain ⟨ha, -, hc⟩ := h1
        refine Or.inl (Or.inl (Or.inl ⟨?_, by norm_num, ?_⟩))
        · norm_num at ha ⊢
          linarith
        · norm_num at hc ⊢
          linarith
      · obtain ⟨⟨ha, hb⟩, hc⟩ := h2
        refine Or.inl (Or.inl (Or.inr ⟨⟨?_, ?_⟩, ?_⟩))
        · norm_num at ha ⊢
          linarith
        · norm_num at hb ⊢
          linarith
        · norm_num at hc ⊢
          linarith
      · obtain ⟨ha, -, hc⟩ := h3
        refine Or.inl (Or.inr ⟨?_, by norm_num, hc⟩)
        norm_num at ha ⊢
        linarith
      · obtain ⟨⟨he, ha⟩, -, hc⟩ := h4
        refine Or.inr ⟨⟨he, ?_⟩, by norm_num, ?_⟩
        · norm_num at ha ⊢
          linarith
        · norm_num at hc ⊢
          linarith
    · rw [varGt_not_bg r g b x y w h 0 hvg] at h0
      simp at h0
  · rw [skin_not_bg r g b x y w h 0 hsk] at h0
    simp at h0

theorem processPixels_short (w h : ℕ) (s : ℚ) (idx : ℕ) (data : List ℕ)
    (hd : data.length < 4) : processPixels w h s idx data = data := by
  match data with
  | [] => rfl
  | [_] => rfl
  | [_, _] => rfl
  | [_, _, _] => rfl
  | _ :: _ :: _ :: _ :: _ =>
    simp only [List.length_cons] at hd
    omega

theorem processPixels_repPix_bg (w h : ℕ) (s : ℚ) (r g b a : ℕ) (t : List ℕ)
    (ht : t.length < 4)
    (hall : ∀ x y, isBackgroundPixel r g b x y w h s = true) :
    ∀ (idx n : ℕ), processPixels w h s idx (repPix r g b a n ++ t) = repPix r g b 0 n ++ t
  | idx, 0 => by
      simpa [repPix] using processPixels_short w h s idx t ht
  | idx, n + 1 => by
      simp [repPix, processPixels, hall,
        processPixels_repPix_bg w h s r g b a t ht hall (idx + 1) n]

theorem processPixels_repPix_not_bg (w h : ℕ) (s : ℚ) (r g b a : ℕ)
    (hall : ∀ x y, isBackgroundPixel r g b x y w h s = false) :
    ∀ (idx n : ℕ), processPixels w h s idx (repPix r g b a n) = repPix r g b a n
  | _, 0 => rfl
  | idx, n + 1 => by
      simp [repPix, processPixels, hall,
        processPixels_repPix_not_bg w h s r g b a hall (idx + 1) n]

theorem white_bg_50 (x y w h : ℕ) : isBackgroundPixel 255 255 255 x y w h 50 = true := by
  simp [isBackgroundPixel, sqrtLt, sqrtGt, isSkinTone, brightnessQ, colorVarSq]
  norm_num

theorem gray_not_bg_0 (x y : ℕ) : isBackgroundPixel 128 128 128 x y 20 20 0 = false := by
  simp [isBackgroundPixel, sqrtLt, sqrtGt, isSkinTone, brightnessQ, colorVarSq]
  norm_num

theorem processPixels_idem (w h : ℕ) (s : ℚ) : ∀ (idx : ℕ) (data : List ℕ),
    processPixels w h s idx (processPixels w h s idx data) = processPixels w h s idx data
  | _, [] => rfl
  | _, [_] => rfl
  | _, [_, _] => rfl
  | _, [_, _, _] => rfl
  | idx, r :: g :: b :: a :: rest => by
      simp only [processPixels]
      cases hbg : isBackgroundPixel r g b (idx % w) (idx / w) w h s <;>
        simp [hbg, processPixels_idem w h s (idx + 1) rest]

theorem removeBackground_bad99 :
    removeBackground (List.replicate 99 255) 5 5 50 =
      repPix 255 255 255 0 24 ++ [255, 255, 255] := by
  have he : List.replicate 99 (255 : ℕ) = repPix 255 255 255 255 24 ++ [255, 255, 255] := by
    decide
  rw [he]
  exact processPixels_repPix_bg 5 5 50 255 255 255 255 [255, 255, 255] (by decide)
    (fun x y => white_bg_50 x y 5 5) 0 24

/-- C1: for every well-formed input buffer (length = width*height*4),
the output buffer has the same length as the input, every pixel's R, G,
B channels equal the input's, and every pixel's output alpha is either
the input alpha or exactly 0. -/
theorem C1_shape_preservation (data : List ℕ) (w h : ℕ) (s : ℚ)
    (hlen : data.length = w * h * 4) :
    (removeBackground data w h s).length = data.length ∧
    ∀ p, p < w * h →
      (removeBackground data w h s)[4 * p]? = data[4 * p]? ∧
      (removeBackground data w h s)[4 * p + 1]? = data[4 * p + 1]? ∧
      (removeBackground data w h s)[4 * p + 2]? = data[4 * p + 2]? ∧
      ((removeBackground data w h s)[4 * p + 3]? = data[4 * p + 3]? ∨
        (removeBackground data w h s)[4 * p + 3]? = some 0) := by
  refine ⟨processPixels_length w h s 0 data, fun p hp => ?_⟩
  have hp4 : 4 * p + 4 ≤ data.length := by omega
  obtain ⟨e0, e1, e2⟩ := removeBackground_rgb data w h s p hp4
  refine ⟨e0, e1, e2, ?_⟩
  rw [removeBackground_alpha data w h s p hp4]
  cases hb : bgDecisionAt data w h s p
  · left
    rw [if_neg (by simp [hb])]
    rw [getElem?_eq_some_getD data (4 * p + 3) (by omega)]
    rfl
  · right
    simp

/-- Witness for C1 at a concrete well-formed buffer. -/
theorem C1_shape_preservation_witness :
    ([1, 2, 3, 4] : List ℕ).length = 1 * 1 * 4 ∧
    ((removeBackground [1, 2, 3, 4] 1 1 0).length = ([1, 2, 3, 4] : List ℕ).length ∧
    ∀ p, p < 1 * 1 →
      (removeBackground [1, 2, 3, 4] 1 1 0)[4 * p]? = ([1, 2, 3, 4] : List ℕ)[4 * p]? ∧
      (removeBackground [1, 2, 3, 4] 1 1 0)[4 * p + 1]? = ([1, 2, 3, 4] : List ℕ)[4 * p + 1]? ∧
      (removeBackground [1, 2, 3, 4] 1 1 0)[4 * p + 2]? = ([1, 2, 3, 4] : List ℕ)[4 * p + 2]? ∧
      ((removeBackground [1, 2, 3, 4] 1 1 0)[4 * p + 3]? = ([1, 2, 3, 4] : List ℕ)[4 * p + 3]? ∨
        (removeBackground [1, 2, 3, 4] 1 1 0)[4 * p + 3]? = some 0)) :=
  ⟨by decide, C1_shape_preservation [1, 2, 3, 4] 1 1 0 (by decide)⟩

/-- C2: a pixel satisfying the skin-tone predicate (95 < R < 255,
40 < G < 200, 20 < B < 150, R > G, G > B, R-G > 15, G-B > 15) is never
set to alpha 0, for every sensitivity in [0, 100]: the classification at
that pixel is false and its output alpha equals its input alpha. -/
theorem C2_skin_protection (data : List ℕ) (w h : ℕ) (s : ℚ) (p : ℕ)
    (hp : 4 * p + 4 ≤ data.length)
    (hs0 : 0 ≤ s) (hs1 : s ≤ 100)
    (h1 : 95 < chR data p) (h2 : chR data p < 255)
    (h3 : 40 < chG data p) (h4 : chG data p < 200)
    (h5 : 20 < chB data p) (h6 : chB data p < 150)
    (h7 : chG data p < chR data p) (h8 : chB data p < chG data p)
    (h9 : 15 < (chR data p : ℤ) - (chG data p : ℤ))
    (h10 : 15 < (chG data p : ℤ) - (chB data p : ℤ)) :
    bgDecisionAt data w h s p = false ∧
    (removeBackground data w h s)[4 * p + 3]? = data[4 * p + 3]? := by
  have hskin : isSkinTone (chR data p) (chG data p) (chB data p) = true := by
    simp only [isSkinTone, Bool.and_eq_true, decide_eq_true_eq]
    omega
  have hdec : bgDecisionAt data w h s p = false := by
    unfold bgDecisionAt
    exact skin_not_bg _ _ _ _ _ _ _ _ hskin
  refine ⟨hdec, ?_⟩
  rw [removeBackground_alpha data w h s p hp, hdec]
  rw [getElem?_eq_some_getD data (4 * p + 3) (by omega)]
  simp [chA]

/-- Witness for C2 at the spec's example pixel (200, 150, 120). -/
theorem C2_skin_protection_witness :
    (4 * 0 + 4 ≤ ([200, 150, 120, 255] : List ℕ).length ∧
      (0 : ℚ) ≤ 50 ∧ (50 : ℚ) ≤ 100 ∧
      95 < chR [200, 150, 120, 255] 0 ∧ chR [200, 150, 120, 255] 0 < 255 ∧
      40 < chG [200, 150, 120, 255] 0 ∧ chG [200, 150, 120, 255] 0 < 200 ∧
      20 < chB [200, 150, 120, 255] 0 ∧ chB [200, 150, 120, 255] 0 < 150 ∧
      chG [200, 150, 120, 255] 0 < chR [200, 150, 120, 255] 0 ∧
      chB [200, 150, 120, 255] 0 < chG [200, 150, 120, 255] 0 ∧
      15 < (chR [200, 150, 120, 255] 0 : ℤ) - (chG [200, 150, 120, 255] 0 : ℤ) ∧
      15 < (chG [200, 150, 120, 255] 0 : ℤ) - (chB [200, 150, 120, 255] 0 : ℤ)) ∧
    (bgDecisionAt [200, 150, 120, 255] 1 1 50 0 = false ∧
      (removeBackground [200, 150, 120, 255] 1 1 50)[4 * 0 + 3]? =
        ([200, 150, 120, 255] : List ℕ)[4 * 0 + 3]?) :=
  ⟨by decide,
    C2_skin_protection [200, 150, 120, 255] 1 1 50 0 (by decide) (by decide) (by decide)
      (by decide) (by decide) (by decide) (by decide) (by decide) (by decide) (by decide)
      (by decide) (by decide) (by decide)⟩

/-- C3: a pixel whose colorVariance exceeds 60 (equivalently, the
squared variance exceeds 60 ^ 2) is never set to alpha 0, for every
sensitivity in [0, 100]: the classification at that pixel is false and
its output alpha equals its input alpha. -/
theorem C3_variance_protection (data : List ℕ) (w h : ℕ) (s : ℚ) (p : ℕ)
    (hp : 4 * p + 4 ≤ data.length)
    (hs0 : 0 ≤ s) (hs1 : s ≤ 100)
    (hv : (60 : ℚ) ^ 2 < colorVarSq (chR data p) (chG data p) (chB data p)) :
    bgDecisionAt data w h s p = false ∧
    (removeBackground data w h s)[4 * p + 3]? = data[4 * p + 3]? := by
  have hgt : sqrtGt (colorVarSq (chR data p) (chG data p) (chB data p)) 60 = true := by
    simp [sqrtGt, hv]
  have hdec : bgDecisionAt data w h s p = false := by
    unfold bgDecisionAt
    exact varGt_not_bg _ _ _ _ _ _ _ _ hgt
  refine ⟨hdec, ?_⟩
  rw [removeBackground_alpha data w h s p hp, hdec]
  rw [getElem?_eq_some_getD data (4 * p + 3) (by omega)]
  simp [chA]

/-- Witness for C3 at the spec's example pixel (255, 0, 0), whose
squared color variance is 14450 > 3600. -/
theorem C3_variance_protection_witness :
    (4 * 0 + 4 ≤ ([255, 0, 0, 128] : List ℕ).length ∧
      (0 : ℚ) ≤ 50 ∧ (50 : ℚ) ≤ 100 ∧
      (60 : ℚ) ^ 2 <
        colorVarSq (chR [255, 0, 0, 128] 0) (chG [255, 0, 0, 128] 0) (chB [255, 0, 0, 128] 0)) ∧
    (bgDecisionAt [255, 0, 0, 128] 1 1 50 0 = false ∧
      (removeBackground [255, 0, 0, 128] 1 1 50)[4 * 0 + 3]? =
        ([255, 0, 0, 128] : List ℕ)[4 * 0 + 3]?) :=
  ⟨⟨by decide, by decide, by decide, by norm_num [colorVarSq, brightnessQ, chR, chG, chB]⟩,
    C3_variance_protection [255, 0, 0, 128] 1 1 50 0 (by decide) (by decide) (by decide)
      (by norm_num [colorVarSq, brightnessQ, chR, chG, chB])⟩

/-- C4: for a fixed well-formed image, the number of pixels whose alpha
the engine sets to 0 at sensitivity 100 is at least the number at
sensitivity 0. -/
theorem C4_monotonic_aggressiveness (data : List ℕ) (w h : ℕ)
    (hlen : data.length = w * h * 4) :
    zeroedCount data w h 0 ≤ zeroedCount data w h 100 := by
  unfold zeroedCount
  refine List.countP_mono_left fun p _ hp => ?_
  unfold bgDecisionAt at hp ⊢
  exact bg_mono_0_100 _ _ _ _ _ _ _ hp

/-- Witness for C4 at a concrete well-formed buffer. -/
theorem C4_monotonic_aggressiveness_witness :
    ([9, 9, 9, 7] : List ℕ).length = 1 * 1 * 4 ∧
    zeroedCount [9, 9, 9, 7] 1 1 0 ≤ zeroedCount [9, 9, 9, 7] 1 1 100 :=
  ⟨by decide, C4_monotonic_aggressiveness [9, 9, 9, 7] 1 1 (by decide)⟩

/-- C5, counterexample: on the malformed buffer of length 99 (width 5,
height 5) the engine does not reject the call — it returns an ordinary
buffer of length 99 that differs from the input, i.e. it processed the
complete RGBA groups and produced a result, contradicting the claim that
an InvalidBufferShape error is signalled with no result. -/
theorem C5_no_error_on_malformed :
    (removeBackground (List.replicate 99 255) 5 5 50).length = 99 ∧
    removeBackground (List.replicate 99 255) 5 5 50 ≠ List.replicate 99 255 := by
  rw [removeBackground_bad99]
  exact ⟨by decide, by decide⟩

/-- C5, amended: the engine performs no buffer-shape validation; called
on the malformed all-255 buffer of length 99 with width 5 and height 5
it processes the 24 complete RGBA quadruplets (here zeroing each alpha,
since the near-white rule fires) and leaves the trailing 3 bytes
unchanged. -/
theorem C5_malformed_processed :
    removeBackground (List.replicate 99 255) 5 5 50 =
      repPix 255 255 255 0 24 ++ [255, 255, 255] :=
  removeBackground_bad99

/-- C6: on a 20×20 image whose every pixel is (255, 255, 255), running
at sensitivity 50 sets every pixel's alpha to 0 (any uniform input
alpha `a`). -/
theorem C6_uniform_white (a : ℕ) :
    removeBackground (repPix 255 255 255 a 400) 20 20 50 = repPix 255 255 255 0 400 := by
  have h := processPixels_repPix_bg 20 20 50 255 255 255 a [] (by decide)
    (fun x y => white_bg_50 x y 20 20) 0 400
  simpa [removeBackground] using h

/-- C7: on a 20×20 image whose every pixel is (128, 128, 128), running
at sensitivity 0 leaves every pixel's alpha unchanged (any uniform input
alpha `a`). -/
theorem C7_uniform_gray (a : ℕ) :
    removeBackground (repPix 128 128 128 a 400) 20 20 0 = repPix 128 128 128 a 400 :=
  processPixels_repPix_not_bg 20 20 0 128 128 128 a gray_not_bg_0 0 400

/-- C8: the engine is deterministic — identical inputs produce identical
output buffers. -/
theorem C8_deterministic (d1 d2 : List ℕ) (w h : ℕ) (s : ℚ) (heq : d1 = d2) :
    removeBackground d1 w h s = removeBackground d2 w h s := by
  rw [heq]

/-- Witness for C8 at a concrete input. -/
theorem C8_deterministic_witness :
    ([255, 255, 255, 9] : List ℕ) = ([255, 255, 255, 9] : List ℕ) ∧
    removeBackground [255, 255, 255, 9] 1 1 50 = removeBackground [255, 255, 255, 9] 1 1 50 :=
  ⟨rfl, C8_deterministic [255, 255, 255, 9] [255, 255, 255, 9] 1 1 50 rfl⟩

/-- C9: the alpha-zeroing decision at pixel `p` depends only on that
pixel's own RGB, its coordinates, and the global width, height and
sensitivity — two buffers agreeing on `p`'s RGB yield the same decision
at `p`, and each output alpha is the pointwise function of that pixel's
own data (so neither the input alpha, nor other pixels, nor processing
order affect the decision). -/
theorem C9_pixel_local (d1 d2 : List ℕ) (w h : ℕ) (s : ℚ) (p : ℕ)
    (hp1 : 4 * p + 4 ≤ d1.length) (hp2 : 4 * p + 4 ≤ d2.length)
    (hr : chR d1 p = chR d2 p) (hg : chG d1 p = chG d2 p) (hb : chB d1 p = chB d2 p) :
    bgDecisionAt d1 w h s p = bgDecisionAt d2 w h s p ∧
    (removeBackground d1 w h s)[4 * p + 3]? =
      some (if bgDecisionAt d1 w h s p then 0 else chA d1 p) ∧
    (removeBackground d2 w h s)[4 * p + 3]? =
      some (if bgDecisionAt d2 w h s p then 0 else chA d2 p) := by
  refine ⟨?_, removeBackground_alpha d1 w h s p hp1, removeBackground_alpha d2 w h s p hp2⟩
  unfold bgDecisionAt
  rw [hr, hg, hb]

/-- Witness for C9: two buffers agreeing on pixel 0's RGB but not on its
alpha. -/
theorem C9_pixel_local_witness :
    (4 * 0 + 4 ≤ ([10, 20, 30, 40] : List ℕ).length ∧
      4 * 0 + 4 ≤ ([10, 20, 30, 99] : List ℕ).length ∧
      chR [10, 20, 30, 40] 0 = chR [10, 20, 30, 99] 0 ∧
      chG [10, 20, 30, 40] 0 = chG [10, 20, 30, 99] 0 ∧
      chB [10, 20, 30, 40] 0 = chB [10, 20, 30, 99] 0) ∧
    (bgDecisionAt [10, 20, 30, 40] 1 1 50 0 = bgDecisionAt [10, 20, 30, 99] 1 1 50 0 ∧
      (removeBackground [10, 20, 30, 40] 1 1 50)[4 * 0 + 3]? =
        some (if bgDecisionAt [10, 20, 30, 40] 1 1 50 0 then 0 else chA [10, 20, 30, 40] 0) ∧
      (removeBackground [10, 20, 30, 99] 1 1 50)[4 * 0 + 3]? =
        some (if bgDecisionAt [10, 20, 30, 99] 1 1 50 0 then 0 else chA [10, 20, 30, 99] 0)) :=
  ⟨⟨by decide, by decide, by decide, by decide, by decide⟩,
    C9_pixel_local [10, 20, 30, 40] [10, 20, 30, 99] 1 1 50 0 (by decide) (by decide)
      (by decide) (by decide) (by decide)⟩

/-- C10: the engine is idempotent — applying it twice with the same
parameters yields the same buffer as applying it once. -/
theorem C10_idempotent (data : List ℕ) (w h : ℕ) (s : ℚ)
    (hlen : data.length = w * h * 4) :
    removeBackground (removeBackground data w h s) w h s = removeBackground data w h s :=
  processPixels_idem w h s 0 data

/-- Witness for C10 at a concrete well-formed buffer. -/
theorem C10_idempotent_witness :
    ([255, 255, 255, 9] : List ℕ).length = 1 * 1 * 4 ∧
    removeBackground (removeBackground [255, 255, 255, 9] 1 1 50) 1 1 50 =
      removeBackground [255, 255, 255, 9] 1 1 50 :=
  ⟨by decide, C10_idempotent [255, 255, 255, 9] 1 1 50 (by decide)⟩
